import Mathlib

/-!
Verification of the bch-addr address converter (Rust crate `bch_addr`).

Shallow embedding conventions:
* Rust `String`/`&str` is modelled as `Str := List Char`.
* Byte vectors (`Vec<u8>`) are `List Nat` (each entry a byte value).
* The two external collaborators, the Base58Check codec (`bs58`) and the
  cash-style codec (`cash_addr`), are out of scope for the crate (spec sections
  1 and 6) and are modelled as black-box codec records (`B58`, `CAC`) passed as
  parameters; concrete toy instances are used to evaluate at concrete inputs.
* `std::collections::HashMap` is modelled as an association list for lookup;
  the iteration order of `HashMap::keys()` (unspecified, seed dependent in
  Rust) is an explicit `order : List Str` parameter of the functions that
  iterate over the registry.
* A Rust computation that may return `Ok`, return `Err`, or abort with a panic
  is modelled by `ROut`: `data[0]` on an empty vector in
  `legacy_converter::parse` is an abortive failure, not an error value, so it
  is embedded as the distinguished outcome `ROut.panic`.
-/

/-- Rust strings are modelled as lists of characters. -/
abbrev Str := List Char

/-- `Network` enum from `src/lib.rs`. -/
inductive Network where
  | Mainnet
  | Testnet
  | Regtest
deriving DecidableEq, Repr

/-- `AddressType` re-exported from the external `cash_addr` crate; it has
exactly the two variants matched exhaustively in `legacy_converter::build`. -/
inductive AddressType where
  | P2PKH
  | P2SH
deriving DecidableEq, Repr

/-- `AddressFormat` enum from `src/lib.rs`: Legacy, CashAddr, or a
user-defined named format. -/
inductive AddressFormat where
  | Legacy
  | CashAddr
  | Other (name : Str)
deriving DecidableEq, Repr

/-- `Error` enum from `src/error.rs`. The payloads of the two wrapped
collaborator errors (`Bs58`, `CashAddr`) are never inspected by the crate and
are dropped. -/
inductive Error where
  | UnknownLegacyPrefix (b : Nat)
  | UnknownCashPrefix (p : Str)
  | UnknownCashFormat (f : AddressFormat) (n : Network)
  | InvalidAddress (a : Str)
  | Bs58
  | CashAddr
deriving DecidableEq, Repr

/-- Outcome of a Rust computation: a value, an error value, or an abortive
failure (panic). -/
inductive ROut (α : Type) where
  | ok : α → ROut α
  | err : Error → ROut α
  | panic : ROut α
deriving DecidableEq, Repr

/-- Decidable equality for `Except` results, used to evaluate the embedded
operations at concrete inputs. -/
instance exceptDecEq {ε α : Type} [DecidableEq ε] [DecidableEq α] :
    DecidableEq (Except ε α) := fun x y =>
  match x, y with
  | .error a, .error b =>
    if h : a = b then isTrue (by rw [h])
    else isFalse (fun he => h (Except.error.inj he))
  | .error _, .ok _ => isFalse (fun he => Except.noConfusion he)
  | .ok _, .error _ => isFalse (fun he => Except.noConfusion he)
  | .ok a, .ok b =>
    if h : a = b then isTrue (by rw [h])
    else isFalse (fun he => h (Except.ok.inj he))

/-- Collaborator A (spec section 6): the Base58Check codec (`bs58` crate).
`decode` models `bs58::decode(s).with_check(None).into_vec()`, returning the
checksum-stripped payload bytes or a decode failure; `encode` models
`bs58::encode(bytes).with_check().into_string()`. Nothing constrains the
decoded payload to be nonempty. -/
structure B58 where
  decode : Str → Option (List Nat)
  encode : List Nat → Str

/-- Collaborator B (spec section 6): the cash-style codec (`cash_addr` crate).
`decode` returns the embedded human-readable part, the address type and the
hash bytes after validating the checksum; `encode` may fail (its Rust
signature returns `Result`). -/
structure CAC where
  decode : Str → Option (Str × AddressType × List Nat)
  encode : Str → AddressType → List Nat → Option Str

/-- `legacy_converter::parse` from `src/legacy_converter.rs`. The Rust code
evaluates `data[0]` on the decoded byte vector, which aborts (index out of
bounds) when the checksum-valid payload is empty; this is the `ROut.panic`
case. -/
def legacy_converter.parse (b : B58) (addr : Str) :
    ROut (AddressFormat × Network × AddressType × List Nat) :=
  match b.decode addr with
  | none => .err .Bs58
  | some [] => .panic
  | some (d0 :: rest) =>
    if d0 = 0x00 then .ok (.Legacy, .Mainnet, .P2PKH, rest)
    else if d0 = 0x05 then .ok (.Legacy, .Mainnet, .P2SH, rest)
    else if d0 = 0x6f then .ok (.Legacy, .Testnet, .P2PKH, rest)
    else if d0 = 0xc4 then .ok (.Legacy, .Testnet, .P2SH, rest)
    else .err (.UnknownLegacyPrefix d0)

/-- `legacy_converter::build` from `src/legacy_converter.rs`: an exhaustive
match over `(Network, AddressType)` chooses the version byte, which is
prepended to the hash before checksum-appended Base58 encoding. The Rust
function has no error path; its Lean type is accordingly total. -/
def legacy_converter.build (b : B58) (network : Network)
    (addr_type : AddressType) (hash : List Nat) : Str :=
  let vb : Nat :=
    match network, addr_type with
    | .Mainnet, .P2PKH => 0x00
    | .Mainnet, .P2SH => 0x05
    | .Testnet, .P2PKH => 0x6f
    | .Testnet, .P2SH => 0xc4
    | .Regtest, .P2PKH => 0x6f
    | .Regtest, .P2SH => 0xc4
  b.encode (vb :: hash)

/-- `PrefixDetails` struct from `src/cash_converter.rs`. -/
structure PrefixDetails where
  format : AddressFormat
  network : Network
deriving DecidableEq, Repr

/-- `CashConverter` struct from `src/cash_converter.rs`: forward and inverse
registry maps, modelled as association lists (first binding wins on lookup,
matching `HashMap` after `extend`-style overwrites are prepended). -/
structure CashConverter where
  pfx_list : List (Str × PrefixDetails)
  pfx_inv_list : List (PrefixDetails × Str)

/-- Key lookup in the forward registry map (models `HashMap::get`). -/
def lookupPfx : List (Str × PrefixDetails) → Str → Option PrefixDetails
  | [], _ => none
  | (k, v) :: rest, key => if k = key then some v else lookupPfx rest key

/-- Key lookup in the inverse registry map (models `HashMap::get`). -/
def lookupInv : List (PrefixDetails × Str) → PrefixDetails → Option Str
  | [], _ => none
  | (k, v) :: rest, key => if k = key then some v else lookupInv rest key

/-- The `"bitcoincash"` built-in registry key. -/
def bitcoincash_s : Str := ['b', 'i', 't', 'c', 'o', 'i', 'n', 'c', 'a', 's', 'h']

/-- The `"bchtest"` built-in registry key. -/
def bchtest_s : Str := ['b', 'c', 'h', 't', 'e', 's', 't']

/-- The `"bchreg"` built-in registry key. -/
def bchreg_s : Str := ['b', 'c', 'h', 'r', 'e', 'g']

/-- `CashConverter::new` from `src/cash_converter.rs`: seeds both maps with
the three built-in CashAddr registrations. -/
def CashConverter.new : CashConverter :=
  { pfx_list :=
      [ (bitcoincash_s, ⟨.CashAddr, .Mainnet⟩)
      , (bchtest_s, ⟨.CashAddr, .Testnet⟩)
      , (bchreg_s, ⟨.CashAddr, .Regtest⟩) ]
  , pfx_inv_list :=
      [ (⟨.CashAddr, .Mainnet⟩, bitcoincash_s)
      , (⟨.CashAddr, .Testnet⟩, bchtest_s)
      , (⟨.CashAddr, .Regtest⟩, bchreg_s) ] }

/-- `CashConverter::add_prefixes`: inserts each user pair into both maps under
`AddressFormat::Other(format_name)`; `HashMap::extend` overwrites on key
collision, modelled by prepending the new bindings. -/
def CashConverter.add_pfxs (c : CashConverter) (pfxs : List (Str × Network))
    (format_name : Str) : CashConverter :=
  { pfx_list :=
      pfxs.map (fun p => (p.1, ⟨.Other format_name, p.2⟩)) ++ c.pfx_list
  , pfx_inv_list :=
      pfxs.map (fun p => (⟨.Other format_name, p.2⟩, p.1)) ++ c.pfx_inv_list }

/-- `addr.contains(SEPARATOR)` where `SEPARATOR = ':'`. -/
def contains_sep : Str → Bool
  | [] => false
  | c :: rest => if c = ':' then true else contains_sep rest

/-- `CashConverter::parse_with_prefix`: decode via the external codec, then
look the returned human-readable part up in the forward map; an unknown
registry key is a distinct error from a checksum failure. -/
def CashConverter.parse_with_pfx (cc : CAC) (c : CashConverter) (addr : Str) :
    Except Error (AddressFormat × Network × AddressType × List Nat) :=
  match cc.decode addr with
  | none => .error .CashAddr
  | some (pfx, addr_type, hash) =>
    match lookupPfx c.pfx_list pfx with
    | none => .error (.UnknownCashPrefix pfx)
    | some pd => .ok (pd.format, pd.network, addr_type, hash)

/-- The `for prefix in self.prefix_list.keys()` trial loop of
`CashConverter::parse`: synthesize `key ++ ":" ++ addr` for each registry key
in the given iteration order and return the first success. -/
def CashConverter.parse_loop (cc : CAC) (c : CashConverter) (addr : Str) :
    List Str → Except Error (AddressFormat × Network × AddressType × List Nat)
  | [] => .error (.InvalidAddress addr)
  | p :: rest =>
    match CashConverter.parse_with_pfx cc c (p ++ ':' :: addr) with
    | .ok r => .ok r
    | .error _ => CashConverter.parse_loop cc c addr rest

/-- `CashConverter::parse`: with a separator, decode directly; without one,
try every registry key. `order` is the iteration order produced by
`HashMap::keys()`, which Rust leaves unspecified. -/
def CashConverter.parse (cc : CAC) (c : CashConverter) (order : List Str)
    (addr : Str) :
    Except Error (AddressFormat × Network × AddressType × List Nat) :=
  if contains_sep addr then CashConverter.parse_with_pfx cc c addr
  else CashConverter.parse_loop cc c addr order

/-- `CashConverter::build`: look up the canonical registry key for the
(format, network) pair in the inverse map, then delegate to the external
codec's encode; codec failure is wrapped as `Error.CashAddr`. -/
def CashConverter.build (cc : CAC) (c : CashConverter) (format : AddressFormat)
    (network : Network) (addr_type : AddressType) (hash : List Nat) :
    Except Error Str :=
  match lookupInv c.pfx_inv_list ⟨format, network⟩ with
  | none => .error (.UnknownCashFormat format network)
  | some p =>
    match cc.encode p addr_type hash with
    | some s => .ok s
    | none => .error .CashAddr

/-- `Converter` struct from `src/lib.rs`. -/
structure Converter where
  cash_converter : CashConverter

/-- `Converter::new`. -/
def Converter.new : Converter := ⟨CashConverter.new⟩

/-- `Converter::add_prefixes`. -/
def Converter.add_pfxs (c : Converter) (pfxs : List (Str × Network))
    (format_name : Str) : Converter :=
  ⟨c.cash_converter.add_pfxs pfxs format_name⟩

/-- Lifts the `Result` of a collaborator call followed by `?` into `ROut`. -/
def exceptToROut : Except Error α → ROut α
  | .ok a => .ok a
  | .error e => .err e

/-- `Converter::parse` from `src/lib.rs`: try legacy decode, then cash-style
decode, then collapse any remaining error to `InvalidAddress`. A panic in the
legacy decode propagates. -/
def Converter.parse (b : B58) (cc : CAC) (order : List Str) (c : Converter)
    (addr : Str) : ROut (AddressFormat × Network × AddressType × List Nat) :=
  match legacy_converter.parse b addr with
  | .ok r => .ok r
  | .panic => .panic
  | .err _ =>
    match CashConverter.parse cc c.cash_converter order addr with
    | .ok r => .ok r
    | .error _ => .err (.InvalidAddress addr)

/-- `Converter::detect_addr_format`. -/
def Converter.detect_addr_format (b : B58) (cc : CAC) (order : List Str)
    (c : Converter) (addr : Str) : ROut AddressFormat :=
  match Converter.parse b cc order c addr with
  | .ok (format, _, _, _) => .ok format
  | .err e => .err e
  | .panic => .panic

/-- `Converter::detect_addr_network`. -/
def Converter.detect_addr_network (b : B58) (cc : CAC) (order : List Str)
    (c : Converter) (addr : Str) : ROut Network :=
  match Converter.parse b cc order c addr with
  | .ok (_, network, _, _) => .ok network
  | .err e => .err e
  | .panic => .panic

/-- `Converter::detect_addr_type`. -/
def Converter.detect_addr_type (b : B58) (cc : CAC) (order : List Str)
    (c : Converter) (addr : Str) : ROut AddressType :=
  match Converter.parse b cc order c addr with
  | .ok (_, _, addr_type, _) => .ok addr_type
  | .err e => .err e
  | .panic => .panic

/-- `Converter::to_cash_addr_with_options` from `src/lib.rs`. -/
def Converter.to_cash_addr_with_options (b : B58) (cc : CAC)
    (order : List Str) (c : Converter) (legacy : Str)
    (format0 : Option AddressFormat) (network0 : Option Network) : ROut Str :=
  let format := format0.getD AddressFormat.CashAddr
  match legacy_converter.parse b legacy with
  | .panic => .panic
  | .ok (_, current_network, addr_type, hash) =>
    let network := network0.getD current_network
    exceptToROut (CashConverter.build cc c.cash_converter format network addr_type hash)
  | .err _ =>
    match Converter.detect_addr_format b cc order c legacy with
    | .panic => .panic
    | .ok current_format =>
      if format = current_format then .ok legacy
      else
        match CashConverter.parse cc c.cash_converter order legacy with
        | .error e => .err e
        | .ok (_, current_network, addr_type, hash) =>
          let network := network0.getD current_network
          exceptToROut (CashConverter.build cc c.cash_converter format network addr_type hash)
    | .err _ => .err (.InvalidAddress legacy)

/-- `Converter::to_cash_addr`. -/
def Converter.to_cash_addr (b : B58) (cc : CAC) (order : List Str)
    (c : Converter) (legacy : Str) : ROut Str :=
  Converter.to_cash_addr_with_options b cc order c legacy none none

/-- `Converter::to_legacy_addr` from `src/lib.rs`: cash-style decode first,
re-encoding via the legacy adapter on success; otherwise return the input
unchanged when it validates as legacy; otherwise `InvalidAddress`. -/
def Converter.to_legacy_addr (b : B58) (cc : CAC) (order : List Str)
    (c : Converter) (cash : Str) : ROut Str :=
  match CashConverter.parse cc c.cash_converter order cash with
  | .ok (_, network, addr_type, hash) =>
    .ok (legacy_converter.build b network addr_type hash)
  | .error _ =>
    match legacy_converter.parse b cash with
    | .ok _ => .ok cash
    | .panic => .panic
    | .err _ => .err (.InvalidAddress cash)

/-- `Converter::is_cash_addr`. -/
def Converter.is_cash_addr (cc : CAC) (order : List Str) (c : Converter)
    (addr : Str) : Bool :=
  match CashConverter.parse cc c.cash_converter order addr with
  | .ok _ => true
  | .error _ => false

/-- `Converter::is_legacy_addr`; inherits the abortive failure of the legacy
decode. -/
def Converter.is_legacy_addr (b : B58) (addr : Str) : ROut Bool :=
  match legacy_converter.parse b addr with
  | .ok _ => .ok true
  | .err _ => .ok false
  | .panic => .panic

/-- `Converter::is_mainnet_addr`: detection failure becomes `false`. -/
def Converter.is_mainnet_addr (b : B58) (cc : CAC) (order : List Str)
    (c : Converter) (addr : Str) : ROut Bool :=
  match Converter.detect_addr_network b cc order c addr with
  | .ok network => .ok (decide (network = Network.Mainnet))
  | .err _ => .ok false
  | .panic => .panic

/-- `Converter::is_testnet_addr`. -/
def Converter.is_testnet_addr (b : B58) (cc : CAC) (order : List Str)
    (c : Converter) (addr : Str) : ROut Bool :=
  match Converter.detect_addr_network b cc order c addr with
  | .ok network => .ok (decide (network = Network.Testnet))
  | .err _ => .ok false
  | .panic => .panic

/-- `Converter::is_regtest_addr`. -/
def Converter.is_regtest_addr (b : B58) (cc : CAC) (order : List Str)
    (c : Converter) (addr : Str) : ROut Bool :=
  match Converter.detect_addr_network b cc order c addr with
  | .ok network => .ok (decide (network = Network.Regtest))
  | .err _ => .ok false
  | .panic => .panic

/-- `Converter::is_p2pkh_addr`. -/
def Converter.is_p2pkh_addr (b : B58) (cc : CAC) (order : List Str)
    (c : Converter) (addr : Str) : ROut Bool :=
  match Converter.detect_addr_type b cc order c addr with
  | .ok t => .ok (decide (t = AddressType.P2PKH))
  | .err _ => .ok false
  | .panic => .panic

/-- `Converter::is_p2sh_addr`. -/
def Converter.is_p2sh_addr (b : B58) (cc : CAC) (order : List Str)
    (c : Converter) (addr : Str) : ROut Bool :=
  match Converter.detect_addr_type b cc order c addr with
  | .ok t => .ok (decide (t = AddressType.P2SH))
  | .err _ => .ok false
  | .panic => .panic

/-- Statement helper: an outcome whose error case (if any) is exactly
`InvalidAddress` carrying the given input. -/
def only_invalid_err (addr : Str) : ROut α → Prop
  | .err e => e = Error.InvalidAddress addr
  | _ => True

/-- Statement helper: whether an `Except` result is an error. -/
def isErr : Except Error α → Bool
  | .error _ => true
  | .ok _ => false

/-- A concrete legacy mainnet P2PKH address for the toy Base58Check codec. -/
def la_s : Str := ['L', 'A']

/-- A concrete legacy testnet P2PKH address for the toy Base58Check codec. -/
def lt_s : Str := ['L', 'T']

/-- A concrete input whose toy Base58Check decoding is the empty payload. -/
def em_s : Str := ['E', 'M']

/-- A concrete input whose toy Base58Check decoding starts with the
unregistered version byte 0x01. -/
def bd_s : Str := ['B', 'D']

/-- A concrete input no toy codec accepts. -/
def z_s : Str := ['Z']

/-- A bare cash-style payload (no separator). -/
def q_s : Str := ['Q']

/-- The cash-style string `bitcoincash:Q`. -/
def bq_s : Str := bitcoincash_s ++ [':', 'Q']

/-- The cash-style string `bchtest:Q`. -/
def btq_s : Str := bchtest_s ++ [':', 'Q']

/-- The cash-style string `bchreg:Q`. -/
def brq_s : Str := bchreg_s ++ [':', 'Q']

/-- The built-in registry keys in insertion order, one admissible iteration
order for the trial-decode loop. -/
def new_keys : List Str := [bitcoincash_s, bchtest_s, bchreg_s]

/-- The built-in registry keys with the first two swapped: another admissible
iteration order for the same registry. -/
def new_keys_swapped : List Str := [bchtest_s, bitcoincash_s, bchreg_s]

/-- The format name `"SLP"`. -/
def slp_s : Str := ['S', 'L', 'P']

/-- A toy Base58Check codec instance used to evaluate theorems at concrete
inputs. It satisfies the collaborator contract of spec section 6 at the
points used: decoding is the inverse of encoding where both are defined, and
the decoded payload may be empty (as with the real codec on `"3QJmnh"`). -/
def toyB58 : B58 :=
  { decode := fun s =>
      if s = la_s then some [0x00, 7]
      else if s = lt_s then some [0x6f, 7]
      else if s = em_s then some []
      else if s = bd_s then some [0x01, 7]
      else none
  , encode := fun d =>
      if d = [0x00, 7] then la_s
      else if d = [0x6f, 7] then lt_s
      else ['?'] }

/-- A toy cash-style codec accepting exactly `bitcoincash:Q`. -/
def toyCAC : CAC :=
  { decode := fun s =>
      if s = bq_s then some (bitcoincash_s, .P2PKH, [7]) else none
  , encode := fun p t h =>
      if p = bitcoincash_s ∧ t = .P2PKH ∧ h = [7] then some bq_s else none }

/-- A toy cash-style codec under which the bare payload `Q` validates against
two different registered keys (`bitcoincash` and `bchtest`), exhibiting the
order dependence of the trial-decode loop. -/
def toyCAC2 : CAC :=
  { decode := fun s =>
      if s = bq_s then some (bitcoincash_s, .P2PKH, [7])
      else if s = btq_s then some (bchtest_s, .P2PKH, [7])
      else none
  , encode := fun _ _ _ => none }

/-- A toy cash-style codec accepting `bchreg:Q` and `bchtest:Q`, for the
Regtest round-trip counterexample. -/
def toyCAC3 : CAC :=
  { decode := fun s =>
      if s = brq_s then some (bchreg_s, .P2PKH, [7])
      else if s = btq_s then some (bchtest_s, .P2PKH, [7])
      else none
  , encode := fun p t h =>
      if p = bchtest_s ∧ t = .P2PKH ∧ h = [7] then some btq_s
      else if p = bchreg_s ∧ t = .P2PKH ∧ h = [7] then some brq_s
      else none }

/-- C7: legacy encoding is total over every (Network, AddressType) pair (its
type has no error case), maps Mainnet to 0x00/0x05 and Testnet to 0x6f/0xc4,
maps Regtest onto the Testnet bytes, and prepends the chosen byte to the hash
before Base58Check encoding. -/
theorem c7_legacy_build_total_table (b : B58) (hash : List Nat) :
    legacy_converter.build b .Mainnet .P2PKH hash = b.encode (0x00 :: hash)
    ∧ legacy_converter.build b .Mainnet .P2SH hash = b.encode (0x05 :: hash)
    ∧ legacy_converter.build b .Testnet .P2PKH hash = b.encode (0x6f :: hash)
    ∧ legacy_converter.build b .Testnet .P2SH hash = b.encode (0xc4 :: hash)
    ∧ legacy_converter.build b .Regtest .P2PKH hash = b.encode (0x6f :: hash)
    ∧ legacy_converter.build b .Regtest .P2SH hash = b.encode (0xc4 :: hash) :=
  ⟨rfl, rfl, rfl, rfl, rfl, rfl⟩

/-- C8: a successful legacy decode never reports `Regtest`: every version
byte in the fixed table maps to Mainnet or Testnet. -/
theorem c8_legacy_decode_never_regtest (b : B58) (addr : Str)
    (f : AddressFormat) (n : Network) (t : AddressType) (hash : List Nat)
    (h : legacy_converter.parse b addr = .ok (f, n, t, hash)) :
    n = .Mainnet ∨ n = .Testnet := by
  unfold legacy_converter.parse at h
  split at h
  · simp at h
  · simp at h
  · split at h
    · simp only [ROut.ok.injEq, Prod.mk.injEq] at h
      exact Or.inl h.2.1.symm
    · split at h
      · simp only [ROut.ok.injEq, Prod.mk.injEq] at h
        exact Or.inl h.2.1.symm
      · split at h
        · simp only [ROut.ok.injEq, Prod.mk.injEq] at h
          exact Or.inr h.2.1.symm
        · split at h
          · simp only [ROut.ok.injEq, Prod.mk.injEq] at h
            exact Or.inr h.2.1.symm
          · simp at h

/-- C8 witness: the toy legacy mainnet address decodes to Mainnet. -/
theorem c8_legacy_decode_never_regtest_witness :
    Network.Mainnet = .Mainnet ∨ Network.Mainnet = .Testnet :=
  c8_legacy_decode_never_regtest toyB58 la_s .Legacy .Mainnet .P2PKH [7]
    (by decide)

/-- C6: when Base58Check decoding succeeds but the first byte is not one of
0x00, 0x05, 0x6f, 0xc4, legacy parsing fails with the distinct
unknown-legacy-prefix error carrying exactly that byte. -/
theorem c6_unknown_version_byte (b : B58) (addr : Str) (d0 : Nat)
    (rest : List Nat)
    (hdec : b.decode addr = some (d0 :: rest))
    (h0 : d0 ≠ 0x00) (h5 : d0 ≠ 0x05) (h6f : d0 ≠ 0x6f) (hc4 : d0 ≠ 0xc4) :
    legacy_converter.parse b addr = .err (.UnknownLegacyPrefix d0) := by
  unfold legacy_converter.parse
  rw [hdec]
  simp [h0, h5, h6f, hc4]

/-- C6 witness: an input decoding to version byte 0x01 fails with
`UnknownLegacyPrefix 0x01`. -/
theorem c6_unknown_version_byte_witness :
    legacy_converter.parse toyB58 bd_s = .err (.UnknownLegacyPrefix 0x01) :=
  c6_unknown_version_byte toyB58 bd_s 0x01 [7]
    (by decide) (by decide) (by decide) (by decide) (by decide)

/-- C3: the claim that no input can abort is contradicted by the code: for an
input whose checksum-valid Base58Check payload is empty (the real codec
decodes `"3QJmnh"` to the empty payload), `legacy_converter::parse` evaluates
`data[0]` on an empty vector and aborts, and the abort propagates through
`parse`, `is_legacy_addr`, `is_mainnet_addr`, `to_cash_addr_with_options`
and `to_legacy_addr`. -/
theorem c3_empty_payload_aborts :
    legacy_converter.parse toyB58 em_s = ROut.panic
    ∧ Converter.parse toyB58 toyCAC new_keys Converter.new em_s = ROut.panic
    ∧ Converter.is_legacy_addr toyB58 em_s = ROut.panic
    ∧ Converter.is_mainnet_addr toyB58 toyCAC new_keys Converter.new em_s
        = ROut.panic
    ∧ Converter.to_cash_addr_with_options toyB58 toyCAC new_keys Converter.new
        em_s none none = ROut.panic
    ∧ Converter.to_legacy_addr toyB58 toyCAC new_keys Converter.new em_s
        = ROut.panic := by
  decide

/-- C5 counterexample: converting a valid legacy address to an unregistered
target format makes `to_cash_addr_with_options` return the collaborator-level
`UnknownCashFormat` error unchanged, not `InvalidAddress`: the `?` on the
encode step at `src/lib.rs:126` propagates the cause instead of collapsing
it. -/
theorem c5_unknown_format_error_escapes :
    Converter.to_cash_addr_with_options toyB58 toyCAC new_keys Converter.new
      la_s (some (.Other slp_s)) none
      = ROut.err (.UnknownCashFormat (.Other slp_s) .Mainnet)
    ∧ ROut.err (α := Str) (.UnknownCashFormat (.Other slp_s) .Mainnet)
      ≠ ROut.err (.InvalidAddress la_s) := by
  decide

/-- C5 (amended): `parse` and `to_legacy_addr` do collapse every error they
return to `InvalidAddress` carrying the input (legacy encoding has no error
path), for every codec, registry, iteration order and input. -/
theorem c5_parse_and_to_legacy_collapse (b : B58) (cc : CAC)
    (order : List Str) (c : Converter) (addr : Str) :
    only_invalid_err addr (Converter.parse b cc order c addr)
    ∧ only_invalid_err addr (Converter.to_legacy_addr b cc order c addr) := by
  constructor
  · unfold Converter.parse
    split
    · trivial
    · trivial
    · split
      · trivial
      · rfl
  · unfold Converter.to_legacy_addr
    split
    · trivial
    · split
      · trivial
      · trivial
      · rfl

/-- C4: the trial-decode loop's result genuinely depends on the iteration
order of the registry keys: over the built-in registry, with a codec under
which the bare payload validates against two different keys, two orders that
are permutations of the same key set (as `HashMap::keys()` may produce on two
runs) yield different networks. -/
theorem c4_trial_order_dependence :
    new_keys = CashConverter.new.pfx_list.map Prod.fst
    ∧ List.Perm new_keys new_keys_swapped
    ∧ CashConverter.parse toyCAC2 CashConverter.new new_keys q_s
        = .ok (.CashAddr, .Mainnet, .P2PKH, [7])
    ∧ CashConverter.parse toyCAC2 CashConverter.new new_keys_swapped q_s
        = .ok (.CashAddr, .Testnet, .P2PKH, [7]) := by
  refine ⟨by decide, ?_, by decide, by decide⟩
  unfold new_keys new_keys_swapped
  exact List.Perm.swap _ _ _

/-- Inversion of the built-in registry: if the inverse map sends
`(CashAddr, n)` to a key, the forward map sends that key back to
`(CashAddr, n)`. -/
theorem lookupInv_new_inv (n : Network) (pfx : Str)
    (h : lookupInv CashConverter.new.pfx_inv_list ⟨.CashAddr, n⟩ = some pfx) :
    lookupPfx CashConverter.new.pfx_list pfx = some ⟨.CashAddr, n⟩ := by
  cases n
  · rw [(by decide :
      lookupInv CashConverter.new.pfx_inv_list ⟨.CashAddr, .Mainnet⟩
        = some bitcoincash_s)] at h
    rw [← Option.some.inj h]
    decide
  · rw [(by decide :
      lookupInv CashConverter.new.pfx_inv_list ⟨.CashAddr, .Testnet⟩
        = some bchtest_s)] at h
    rw [← Option.some.inj h]
    decide
  · rw [(by decide :
      lookupInv CashConverter.new.pfx_inv_list ⟨.CashAddr, .Regtest⟩
        = some bchreg_s)] at h
    rw [← Option.some.inj h]
    decide

/-- C1 (amended): for every valid legacy address, converting to cash-style
with the default options and back with `to_legacy_addr` returns exactly the
original string. The codec hypotheses are the collaborator contracts of spec
section 6 at the relevant points: the cash codec inverts its own encoding and
emits the separator, and Base58Check re-encodes the decoded data to the
original string (`legacy_converter.build b n t hsh` is exactly that
re-encoding, since the version-byte tables of parse and build agree on
Mainnet and Testnet). -/
theorem c1_legacy_cash_legacy_round_trip (b : B58) (cc : CAC)
    (order : List Str) (addr s pfx : Str) (n : Network) (t : AddressType)
    (hsh : List Nat)
    (hleg : legacy_converter.parse b addr = .ok (.Legacy, n, t, hsh))
    (hpfx : lookupInv CashConverter.new.pfx_inv_list ⟨.CashAddr, n⟩ = some pfx)
    (hencC : cc.encode pfx t hsh = some s)
    (hsep : contains_sep s = true)
    (hdecC : cc.decode s = some (pfx, t, hsh))
    (hencB : legacy_converter.build b n t hsh = addr) :
    Converter.to_cash_addr_with_options b cc order Converter.new addr none none
      = .ok s
    ∧ Converter.to_legacy_addr b cc order Converter.new s = .ok addr := by
  constructor
  · unfold Converter.to_cash_addr_with_options CashConverter.build
    simp only [Converter.new]
    rw [hleg]
    simp [hpfx, hencC, exceptToROut]
  · unfold Converter.to_legacy_addr CashConverter.parse
      CashConverter.parse_with_pfx
    simp only [Converter.new]
    simp [hsep, hdecC, lookupInv_new_inv n pfx hpfx, hencB]

/-- C1 witness: with codecs satisfying the contracts at a concrete mainnet
legacy address, the round trip returns the original string. -/
theorem c1_legacy_cash_legacy_round_trip_witness :
    Converter.to_cash_addr_with_options toyB58 toyCAC new_keys Converter.new
      la_s none none = .ok bq_s
    ∧ Converter.to_legacy_addr toyB58 toyCAC new_keys Converter.new bq_s
      = .ok la_s :=
  c1_legacy_cash_legacy_round_trip toyB58 toyCAC new_keys la_s bq_s
    bitcoincash_s .Mainnet .P2PKH [7]
    (by decide) (by decide) (by decide) (by decide) (by decide) (by decide)

/-- C1 counterexample: the cash-style side of the claimed round trip fails
for a registered Regtest address: `bchreg:Q` converts to a Testnet legacy
string (Regtest has no legacy version byte), and converting back with the
default options re-encodes under `bchtest`, not under the original `bchreg`
prefix, even though the codec re-encodes the original tuple to `bchreg:Q`. -/
theorem c1_regtest_round_trip_counterexample :
    Converter.to_legacy_addr toyB58 toyCAC3 new_keys Converter.new brq_s
      = .ok lt_s
    ∧ Converter.to_cash_addr_with_options toyB58 toyCAC3 new_keys
        Converter.new lt_s none none = .ok btq_s
    ∧ toyCAC3.encode bchreg_s .P2PKH [7] = some brq_s
    ∧ btq_s ≠ brq_s := by
  decide

/-- C2: when the input is not a valid legacy address and cash-style detection
reports exactly the requested target format, `to_cash_addr_with_options`
returns the input string unchanged, for any optional network argument. -/
theorem c2_target_format_input_unchanged (b : B58) (cc : CAC)
    (order : List Str) (c : Converter) (x : Str) (e : Error)
    (f : AddressFormat) (m : Network) (t : AddressType) (hsh : List Nat)
    (network0 : Option Network)
    (hleg : legacy_converter.parse b x = .err e)
    (hcash : CashConverter.parse cc c.cash_converter order x
      = .ok (f, m, t, hsh)) :
    Converter.to_cash_addr_with_options b cc order c x (some f) network0
      = .ok x := by
  unfold Converter.to_cash_addr_with_options Converter.detect_addr_format
    Converter.parse
  rw [hleg]
  simp [hcash]

/-- C2 witness: a toy cash-style address requested in its own detected format
comes back unchanged. -/
theorem c2_target_format_input_unchanged_witness :
    Converter.to_cash_addr_with_options toyB58 toyCAC new_keys Converter.new
      bq_s (some .CashAddr) none = .ok bq_s :=
  c2_target_format_input_unchanged toyB58 toyCAC new_keys Converter.new bq_s
    .Bs58 .CashAddr .Mainnet .P2PKH [7] none (by decide) (by decide)

/-- C10: under the same conditions as C2, an explicit network override that
differs from the input's detected network is silently ignored: the input
string is returned unchanged, still carrying its original network. -/
theorem c10_network_override_silently_ignored (b : B58) (cc : CAC)
    (order : List Str) (c : Converter) (x : Str) (e : Error)
    (f : AddressFormat) (m : Network) (t : AddressType) (hsh : List Nat)
    (n : Network)
    (hleg : legacy_converter.parse b x = .err e)
    (hcash : CashConverter.parse cc c.cash_converter order x
      = .ok (f, m, t, hsh))
    (_hne : n ≠ m) :
    Converter.to_cash_addr_with_options b cc order c x (some f) (some n)
      = .ok x := by
  unfold Converter.to_cash_addr_with_options Converter.detect_addr_format
    Converter.parse
  rw [hleg]
  simp [hcash]

/-- C10 witness: requesting Testnet for a detected-Mainnet cash-style address
in its own format returns the Mainnet string unchanged. -/
theorem c10_network_override_silently_ignored_witness :
    Converter.to_cash_addr_with_options toyB58 toyCAC new_keys Converter.new
      bq_s (some .CashAddr) (some .Testnet) = .ok bq_s :=
  c10_network_override_silently_ignored toyB58 toyCAC new_keys Converter.new
    bq_s .Bs58 .CashAddr .Mainnet .P2PKH [7] .Testnet
    (by decide) (by decide) (by decide)

/-- The trial loop returns the unique success: if the synthesized string for
`p` decodes and every other key in the iteration order fails, the loop
returns `p`'s result, whatever the order. -/
theorem parse_loop_unique_success (cc : CAC) (c : CashConverter)
    (payload p : Str) (r : AddressFormat × Network × AddressType × List Nat)
    (hok : CashConverter.parse_with_pfx cc c (p ++ ':' :: payload) = .ok r) :
    ∀ order : List Str, p ∈ order →
      (∀ q ∈ order, q ≠ p →
        isErr (CashConverter.parse_with_pfx cc c (q ++ ':' :: payload))
          = true) →
      CashConverter.parse_loop cc c payload order = .ok r := by
  intro order
  induction order with
  | nil => intro hmem; exact absurd hmem (List.not_mem_nil p)
  | cons q rest ih =>
    intro hmem hothers
    unfold CashConverter.parse_loop
    by_cases hq : q = p
    · subst hq
      rw [hok]
    · have he := hothers q (List.mem_cons_self q rest) hq
      cases hpw : CashConverter.parse_with_pfx cc c (q ++ ':' :: payload) with
      | ok r2 => rw [hpw] at he; simp [isErr] at he
      | error e2 =>
        have hm : p ∈ rest := by
          rcases List.mem_cons.mp hmem with h | h
          · exact absurd h.symm hq
          · exact h
        exact ih hm (fun q2 hq2 => hothers q2 (List.mem_cons_of_mem q hq2))

/-- C9: when a bare payload (no separator) validates against exactly one key
of the iteration order, decoding it yields the same
(format, network, type, hash) tuple as decoding the full prefixed string,
regardless of where that key sits in the order. -/
theorem c9_bare_payload_equivalence (cc : CAC) (c : CashConverter)
    (order : List Str) (p payload : Str)
    (r : AddressFormat × Network × AddressType × List Nat)
    (hsep : contains_sep payload = false)
    (hmem : p ∈ order)
    (hok : CashConverter.parse_with_pfx cc c (p ++ ':' :: payload) = .ok r)
    (hothers : ∀ q ∈ order, q ≠ p →
      isErr (CashConverter.parse_with_pfx cc c (q ++ ':' :: payload))
        = true) :
    CashConverter.parse cc c order payload = .ok r := by
  unfold CashConverter.parse
  rw [hsep]
  simp only [Bool.false_eq_true, if_false]
  exact parse_loop_unique_success cc c payload p r hok order hmem hothers

/-- C9 witness: the bare payload `Q` under the built-in registry decodes to
the same tuple as `bitcoincash:Q`. -/
theorem c9_bare_payload_equivalence_witness :
    CashConverter.parse toyCAC CashConverter.new new_keys q_s
      = .ok (.CashAddr, .Mainnet, .P2PKH, [7]) :=
  c9_bare_payload_equivalence toyCAC CashConverter.new new_keys bitcoincash_s
    q_s (.CashAddr, .Mainnet, .P2PKH, [7])
    (by decide) (by decide) (by decide) (by decide)
